import Mathlib

/-!
Verification development for the cw-lessons-displayer plugin (src/main.py).

The Python source is shallowly embedded below.  Wall-clock values are seconds
of the day (`Nat`, `0 ≤ t < 86400`); Python `datetime.time` arithmetic that
wraps past midnight is modelled with `Int` arithmetic modulo 86400.  Schedule
durations are minutes (`Int`, as `int(duration)` in the source).  Fallible
paths that the source turns into an all-`None` result are modelled with
`Option`.
-/

/-- String constant for the blackboard mode name used by the plugin. -/
def modeBlackboard : String := "blackboard"

/-- String constant for the whiteboard mode name used by the plugin. -/
def modeWhiteboard : String := "whiteboard"

/-- String constant for the neutral mode name used by the plugin. -/
def modeNone : String := "none"

/-- The config literal compared against the rule's click field. -/
def trueLiteral : String := "True"

/-- The config literal for a rule that does not require a click. -/
def falseLiteral : String := "False"

/-- First character of an activity id (its type facet): the source tests
`activity_id.startswith('a')` / `activity_id.startswith('f')`. -/
def idType (s : String) : Option Char := s.data.head?

/-- Lesson-type test, `activity_id.startswith('a')` in src/main.py. -/
def isLessonId (s : String) : Bool := idType s == some 'a'

/-- Break-type test, `activity_id.startswith('f')` in src/main.py. -/
def isBreakId (s : String) : Bool := idType s == some 'f'

/-- Node filter from src/main.py lines 647-649 and 753-756:
`len(key) >= 2 and key[1] == str(node_index)`. -/
def keyMatchesNode (key : String) (nodeIndex : Nat) : Bool :=
  match key.data.get? 1 with
  | some c => String.mk [c] == toString nodeIndex
  | none => false

/-- Entries of the requested node, in table order (dict iteration order). -/
def nodeActivitiesOf (timeline : List (String × Int)) (nodeIndex : Nat) :
    List (String × Int) :=
  timeline.filter (fun kv => keyMatchesNode kv.1 nodeIndex)

/-- Sort key from `activity_sort_key` (src/main.py lines 657-665): the digit
value of the third character (0 when absent or not a digit), then the code
point of the first character, so that at equal sequence number a lesson
(`'a'`) sorts before a break (`'f'`). -/
def activitySortKey (s : String) : Nat × Nat :=
  let num := match s.data.get? 2 with
    | some c => if c.isDigit then c.toNat - 48 else 0
    | none => 0
  let ty := match s.data.get? 0 with
    | some c => c.toNat
    | none => 0
  (num, ty)

/-- Strict lexicographic comparison of sort keys. -/
def keyLt (a b : Nat × Nat) : Bool :=
  a.1 < b.1 || (a.1 == b.1 && a.2 < b.2)

/-- Stable insertion: the new element goes before the first strictly greater
element, hence after all equal keys, matching Python's stable `list.sort`. -/
def insertSorted (x : String × Int) : List (String × Int) → List (String × Int)
  | [] => [x]
  | y :: ys =>
    if keyLt (activitySortKey x.1) (activitySortKey y.1) then x :: y :: ys
    else y :: insertSorted x ys

/-- `node_activities.sort(key=activity_sort_key)`: stable ascending sort. -/
def sortActivities (l : List (String × Int)) : List (String × Int) :=
  l.foldr insertSorted []

/-- A Python `datetime` reduced to its `.time()`, as seconds of the day. -/
def timeOfDay (x : Int) : Nat := (x % 86400).toNat

/-- One per-entry window: id, duration (minutes) and the `[start, stop)`
seconds-of-day pair the source stores in `activity_times`. -/
structure Window where
  wid : String
  dur : Int
  start : Nat
  stop : Nat
deriving Repr, DecidableEq

/-- Accumulation of start/end times (src/main.py lines 669-684 and 771-784):
starting from the node anchor, each entry's window begins where the previous
one ended. -/
def windowsOf (acc : Int) : List (String × Int) → List Window
  | [] => []
  | kv :: rest =>
    { wid := kv.1, dur := kv.2, start := timeOfDay acc,
      stop := timeOfDay (acc + kv.2 * 60) } :: windowsOf (acc + kv.2 * 60) rest

/-- `node_end_time`: the accumulated time after the last entry. -/
def nodeEndOf (acc : Int) : List (String × Int) → Nat
  | [] => timeOfDay acc
  | kv :: rest => nodeEndOf (acc + kv.2 * 60) rest

/-- The containment test `start_time <= current_time < activity_end_time`. -/
def containsTime (now : Nat) (w : Window) : Bool :=
  w.start ≤ now && now < w.stop

/-- The all-`None` tuple `(None, None, None, None)` returned on every failure
path of `get_current_activity_time_info`. -/
def noneInfo : Option Int × Option Int × Option String × Option Int :=
  (none, none, none, none)

/-- Embedding of `get_current_activity_time_info` (src/main.py lines
728-845).  Parameters are the context fields the method reads: the parsed
`Current_Time`, `Current_Part = (node anchor start, node index)` and
`Timeline_Data`.  The `State` context value only seeds `current_state`,
which every returning path overwrites, so it is not a parameter.  Returns
`(total_seconds, remaining_seconds, current_activity_id, state)`. -/
def getCurrentActivityTimeInfo (currentTime : Nat)
    (currentPart : Option Nat × Nat) (timeline : List (String × Int)) :
    Option Int × Option Int × Option String × Option Int :=
  match currentPart.1 with
  | none => noneInfo
  | some nodeStart =>
    let acts := nodeActivitiesOf timeline currentPart.2
    if acts.isEmpty then noneInfo
    else
      let sorted := sortActivities acts
      let ws := windowsOf (nodeStart : Int) sorted
      let nodeEnd := nodeEndOf (nodeStart : Int) sorted
      if currentTime < nodeStart then
        match sorted.head? with
        | some kv =>
          (none, some (max 0 ((nodeStart : Int) - (currentTime : Int))),
           some kv.1, some 0)
        | none => noneInfo
      else if nodeEnd ≤ currentTime then noneInfo
      else
        match ws.find? (containsTime currentTime) with
        | some w =>
          (some (w.dur * 60),
           some (max 0 ((w.stop : Int) - (currentTime : Int))),
           some w.wid, some (if isBreakId w.wid then 0 else 1))
        | none => noneInfo

/-- The in-window search of `calculate_current_course` (src/main.py lines
696-713): on the first window containing `now`, a break advances to the next
lesson-type entry after it (possibly none), a non-break is returned as is. -/
def searchCurrentActivity (now : Nat) : List Window → Option String
  | [] => none
  | w :: rest =>
    if containsTime now w then
      if isBreakId w.wid then
        (rest.find? (fun v => isLessonId v.wid)).map (fun v => v.wid)
      else some w.wid
    else searchCurrentActivity now rest

/-- Embedding of `calculate_current_course` (src/main.py lines 624-726), the
highlight-activity resolution.  Returns the activity id to highlight. -/
def calculateCurrentCourse (currentTime : Nat)
    (currentPart : Option Nat × Nat) (timeline : List (String × Int)) :
    Option String :=
  match currentPart.1 with
  | none => none
  | some nodeStart =>
    let acts := nodeActivitiesOf timeline currentPart.2
    if acts.isEmpty then none
    else
      let sorted := sortActivities acts
      let ws := windowsOf (nodeStart : Int) sorted
      let nodeEnd := nodeEndOf (nodeStart : Int) sorted
      if currentTime < nodeStart then
        (sorted.find? (fun kv => isLessonId kv.1)).map (fun kv => kv.1)
      else if nodeEnd ≤ currentTime then none
      else
        match searchCurrentActivity currentTime ws with
        | some i => some i
        | none =>
          (sorted.reverse.find? (fun kv => isLessonId kv.1)).map
            (fun kv => kv.1)

/-! ## Automation trigger engine -/

/-- One rule from the `events` config table, with the defaults
`lesson_settings.get('time', 0)`, `get('click', 'False')`, `get('mode',
'none')` already applied. -/
structure LessonSettings where
  time : Int
  click : String
  mode : String
deriving Repr, DecidableEq

/-- The instance flags of the plugin that `check_automation_trigger`
(src/main.py lines 1833-1905) reads. -/
structure AutoCtx where
  currentLessonName : Option String
  automationTriggered : Bool
  isBlackboardMode : Bool
  isWhiteboardMode : Bool
  userActivityDetected : Bool
deriving Repr, DecidableEq

/-- Embedding of `get_current_mode` (src/main.py lines 1907-1914). -/
def getCurrentMode (isB isW : Bool) : String :=
  if isB then modeBlackboard
  else if isW then modeWhiteboard
  else modeNone

/-- Outcome of one `check_automation_trigger` call: `skip t` returns with
`automation_triggered` left at value `t`; `fired m` calls
`trigger_automation(m)` (opening the confirmation window) and then sets the
flag; `typeError` is the `None <= int` comparison raising `TypeError`, which
propagates to the caller. -/
inductive TrigResult where
  | skip (triggered : Bool)
  | fired (mode : String)
  | typeError
deriving Repr, DecidableEq

/-- Embedding of `check_automation_trigger` (src/main.py lines 1833-1905).
`timeInfo` is the 4-tuple from `get_current_activity_time_info`; note the
source guard `if not time_info` can never fire because a 4-tuple is always
truthy, so it is not modelled.  `elapsedTime` is `time.time() -
self.lesson_start_time` (0 when no lesson start time is recorded). -/
def checkAutomationTrigger (ctx : AutoCtx)
    (settings : List (String × LessonSettings))
    (timeInfo : Option Int × Option Int × Option String × Option Int)
    (elapsedTime : Int) : TrigResult :=
  match ctx.currentLessonName with
  | none => .skip ctx.automationTriggered
  | some name =>
    if name.isEmpty then .skip ctx.automationTriggered
    else if ctx.automationTriggered then .skip ctx.automationTriggered
    else
      match settings.lookup name with
      | none => .skip ctx.automationTriggered
      | some ls =>
        if getCurrentMode ctx.isBlackboardMode ctx.isWhiteboardMode ==
            ls.mode then
          .skip true
        else
          let shouldTrigger : Option Bool :=
            if ls.time > 0 then some (decide (elapsedTime ≥ ls.time))
            else
              match timeInfo.2.1 with
              | none => none
              | some r => some (decide (r ≤ |ls.time|))
          match shouldTrigger with
          | none => .typeError
          | some false => .skip ctx.automationTriggered
          | some true =>
            if !(ls.click == trueLiteral) && ctx.userActivityDetected then
              .skip true
            else .fired ls.mode

/-- Net effect of one `handle_automation` pass (src/main.py lines 1781-1802)
on the triggered flag: a propagated exception is caught there, leaving the
flag as it was; `fired` also reports the mode passed to
`trigger_automation`. -/
def applyTrigResult (ctx : AutoCtx) : TrigResult → AutoCtx × Option String
  | .skip t => ({ ctx with automationTriggered := t }, none)
  | .fired m => ({ ctx with automationTriggered := true }, some m)
  | .typeError => (ctx, none)

/-! ## Confirmation-window state machine -/

/-- State of the confirmation-window machinery: the tip window, the 20 ms
realtime poll timer, the one-shot 5000 ms deadline timer, the level-set
activity flag, the saved `current_automation_mode`, the log of
`execute_mode_switch` calls, and whether the interruption notice was
scheduled.  The fade animations of the source are collapsed. -/
structure WinState where
  tipVisible : Bool
  realtimeActive : Bool
  tipActive : Bool
  activityFlag : Bool
  mode : Option String
  switched : List String
  interruptedNotice : Bool
deriving Repr, DecidableEq

/-- Embedding of `close_tip_window` followed by `_finish_close_tip_window`
(src/main.py lines 2201-2313): stops both timers, closes the window and
clears the saved mode. -/
def closeTipWindowFn (s : WinState) : WinState :=
  { s with realtimeActive := false, tipActive := false, tipVisible := false,
           mode := none }

/-- Embedding of `show_tip_window` (src/main.py lines 2003-2117): closes any
prior window, resets the activity flag, shows the window and starts the
realtime poll and the 5000 ms one-shot deadline timer. -/
def showTipWindow (m : String) (s : WinState) : WinState :=
  let s1 := closeTipWindowFn s
  { s1 with activityFlag := false, mode := some m, tipVisible := true,
            realtimeActive := true, tipActive := true }

/-- Embedding of `handle_immediate_interruption` (src/main.py lines
2137-2156): stops both timers, closes the window and schedules the
interruption-success notice. -/
def handleImmediateInterruption (s : WinState) : WinState :=
  let s1 := { s with realtimeActive := false, tipActive := false }
  let s2 := closeTipWindowFn s1
  { s2 with interruptedNotice := true }

/-- Embedding of `check_realtime_user_activity` (src/main.py lines
2119-2135): with the window gone it stops its own timer; otherwise any
recorded user activity interrupts immediately.  It does not consult the
rule's click setting. -/
def checkRealtimeUserActivity (s : WinState) : WinState :=
  if !s.tipVisible then { s with realtimeActive := false }
  else if s.activityFlag then handleImmediateInterruption s
  else s

/-- Embedding of `on_tip_timeout` (src/main.py lines 1943-1966): stops the
realtime timer, then either interrupts (activity was seen) or calls
`execute_mode_switch(self.current_automation_mode)` and closes the window.
It does not consult the rule's click setting either. -/
def onTipTimeout (s : WinState) : WinState :=
  let s1 := { s with realtimeActive := false }
  if s1.activityFlag then handleImmediateInterruption s1
  else
    let s2 := { s1 with switched := s1.switched ++ [s1.mode.getD modeNone] }
    closeTipWindowFn s2

/-- Events delivered to the window machinery while it is armed: a user
activity sample (`record_user_activity`), a tick of the 20 ms realtime
timer, and the firing of the 5000 ms one-shot deadline timer. -/
inductive WEv where
  | activity
  | rtick
  | timeout
deriving Repr, DecidableEq

/-- One event step; timer callbacks only run while their timer is active,
and the one-shot deadline timer deactivates when it fires. -/
def wstep (s : WinState) : WEv → WinState
  | .activity => { s with activityFlag := true }
  | .rtick => if s.realtimeActive then checkRealtimeUserActivity s else s
  | .timeout =>
    if s.tipActive then onTipTimeout { s with tipActive := false } else s

/-- Run of the window machinery over a list of events. -/
def runWin (s : WinState) : List WEv → WinState
  | [] => s
  | e :: rest => runWin (wstep s e) rest

/-- An idle window state (no window, no timers, nothing switched). -/
def winInit : WinState :=
  { tipVisible := false, realtimeActive := false, tipActive := false,
    activityFlag := false, mode := none, switched := [],
    interruptedNotice := false }

/-! ## Countdown progress display

The source computes `int(((total - remaining) / total) * 100)` in CPython:
`int / int` true division yields the IEEE binary64 double nearest to the
exact ratio (round to nearest, ties to even), `float * int` converts 100
exactly and yields the correctly rounded binary64 product, and `int()`
truncates the double toward zero (raising `OverflowError` on an infinite
value, which the surrounding `except` turns into a progress of 0).  The
binary64 arithmetic is modelled exactly below: a finite nonnegative double
is a dyadic rational `m * 2 ^ scale`, produced by correctly rounding an
exact fraction `num / den` to 53 significant bits (fewer in the subnormal
range, with the least exponent -1074), with overflow to infinity at
`2 ^ 1024`. -/

/-- `round(num / den)` on the exact ratio for `den > 0`: round half up,
`⌊num / den + 1 / 2⌋ = (2 * num + den) / (2 * den)` with floor division. -/
def roundRatio (num den : Int) : Int := (2 * num + den) / (2 * den)

/-- Fuel-driven base-2 logarithm (the fuel makes it structurally recursive
so that it evaluates inside the kernel). -/
def natLog2Aux : Nat → Nat → Nat
  | 0, _ => 0
  | fuel + 1, m => if m < 2 then 0 else natLog2Aux fuel (m / 2) + 1

/-- `natLog2 n` is the position of the leading bit of `n`: for `n > 0`,
`2 ^ natLog2 n ≤ n < 2 ^ (natLog2 n + 1)`. -/
def natLog2 (n : Nat) : Nat := natLog2Aux n n

/-- Decides `2 ^ e ≤ num / den` by cross-multiplication, for a signed
exponent. -/
def le2exp (e : Int) (num den : Nat) : Bool :=
  if 0 ≤ e then decide (den * 2 ^ e.toNat ≤ num)
  else decide (den ≤ num * 2 ^ (-e).toNat)

/-- The binade of `num / den` (both positive): the unique `e` with
`2 ^ e ≤ num / den < 2 ^ (e + 1)`.  Since the ratio lies strictly between
`2 ^ (d - 1)` and `2 ^ (d + 1)` for `d` the difference of the leading-bit
positions, the answer is `d` or `d - 1`. -/
def dyExp (num den : Nat) : Int :=
  let d : Int := (natLog2 num : Int) - (natLog2 den : Int)
  if le2exp d num den then d else d - 1

/-- Whether a rounded value `m * 2 ^ scale` has reached `2 ^ 1024`, the
binary64 overflow threshold (the result is then infinite). -/
def overflowCheck (m : Nat) (scale : Int) : Bool :=
  if 0 ≤ scale then decide (2 ^ 1024 ≤ m * 2 ^ scale.toNat)
  else decide (2 ^ (1024 + (-scale).toNat) ≤ m)

/-- Round `nn / dd` to the nearest integer, ties to even. -/
def roundMant (nn dd : Nat) : Nat :=
  let q := nn / dd
  let r := nn % dd
  if 2 * r < dd then q
  else if dd < 2 * r then q + 1
  else if q % 2 = 0 then q else q + 1

/-- The scale of the binary64 representation for a value in the binade
`2 ^ e`: `e - 52` for a normal value (53 significant bits), the fixed
subnormal scale `-1074` when the binade lies below the normal range. -/
def roundScale (e : Int) : Int := if e ≤ -1023 then -1074 else e - 52

/-- The mantissa of `num / den` rounded at scale `scale`: the nearest
integer (ties to even) to `num / den / 2 ^ scale`, by cross-multiplying
the power of two into whichever side keeps everything in `Nat`. -/
def roundAt (num den : Nat) (scale : Int) : Nat :=
  roundMant (num * 2 ^ (-scale).toNat) (den * 2 ^ scale.toNat)

/-- Correctly rounded binary64 value of the exact fraction `num / den`, as
a dyadic pair `(mantissa, scale)`; `none` models an infinite result (or a
zero divisor, which would raise in Python). -/
def roundPosDouble (num den : Nat) : Option (Nat × Int) :=
  if den = 0 then none
  else if num = 0 then some (0, 0)
  else
    if overflowCheck (roundAt num den (roundScale (dyExp num den)))
        (roundScale (dyExp num den)) then none
    else some (roundAt num den (roundScale (dyExp num den)),
      roundScale (dyExp num den))

/-- The double evaluation of `int(((total - remaining) / total) * 100)`
from src/main.py lines 3599 and 3743 (for `total > 0`): correctly rounded
division, correctly rounded multiplication by 100, truncation toward zero;
`none` models an `OverflowError` from `int()` on an infinite value. -/
def pyProgressValue (total remaining : Int) : Option Int :=
  let a := total - remaining
  match roundPosDouble a.natAbs total.natAbs with
  | none => none
  | some (m1, s1) =>
    match roundPosDouble
        (if 0 ≤ s1 then m1 * 100 * 2 ^ s1.toNat else m1 * 100)
        (if 0 ≤ s1 then 1 else 2 ^ (-s1).toNat) with
    | none => none
    | some (m2, s2) =>
      let v : Int :=
        if 0 ≤ s2 then ((m2 * 2 ^ s2.toNat : Nat) : Int)
        else ((m2 / 2 ^ (-s2).toNat : Nat) : Int)
      some (if a < 0 then -v else v)

/-- Progress-ring value computed by `update_blackboard_countdown` and
`update_whiteboard_countdown` (src/main.py lines 3593-3603 and 3737-3747):
`None` total means "not started" and shows 100; a positive total shows
`max(0, min(100, int(((total - remaining) / total) * 100)))` evaluated in
binary64 doubles; otherwise the progress bar is left untouched (`none`).
An `OverflowError` from `int()` is caught by the surrounding `except`,
whose handler animates the progress ring to 0. -/
def updateCountdownProgress (totalSeconds : Option Int)
    (remainingSeconds : Int) : Option Int :=
  match totalSeconds with
  | none => some 100
  | some total =>
    if total > 0 then
      match pyProgressValue total remainingSeconds with
      | some v => some (max 0 (min 100 v))
      | none => some 0
    else none

/-- The progress formula as the specification states it: the ratio rounded
to the nearest integer, then clamped to `[0, 100]`. -/
def updateCountdownProgressSpec (totalSeconds : Option Int)
    (remainingSeconds : Int) : Option Int :=
  match totalSeconds with
  | none => some 100
  | some total =>
    if total > 0 then
      some (max 0 (min 100 (roundRatio ((total - remainingSeconds) * 100)
        total)))
    else none

/-! ## Input activity monitor -/

/-- One poll sample of `GlobalEventFilter`: the pointer position if the OS
query succeeded, and the pressed state of the polled key codes (an empty
list models a failed `get_key_states`, which returns `{}`). -/
structure InputSample where
  pos : Option (Int × Int)
  keys : List (Nat × Bool)
deriving Repr, DecidableEq

/-- Dictionary read `last_key_state.get(vk_code, False)`. -/
def lookupKey (ks : List (Nat × Bool)) (vk : Nat) : Bool :=
  (ks.lookup vk).getD false

/-- The excluded system keys (src/main.py line 128): Shift, Ctrl, Alt and
the two Win keys, `[0x10, 0x11, 0x12, 0x5B, 0x5C]`. -/
def modifierKeys : List Nat := [16, 17, 18, 91, 92]

/-- The mouse-button states the source re-queries for the click test
(src/main.py lines 114-116): VK codes 1, 2, 4.  The re-query happens in the
same tick as the sample, so it is read from the current sample here. -/
def mouseButtonHeld (cur : InputSample) : Bool :=
  lookupKey cur.keys 1 || lookupKey cur.keys 2 || lookupKey cur.keys 4

/-- Embedding of `GlobalEventFilter.check_user_activity` (src/main.py lines
106-138): true iff the `user_activity_detected` signal is emitted for this
pair of consecutive samples. -/
def checkUserActivity (prev cur : InputSample) : Bool :=
  let mouseSignal :=
    match cur.pos, prev.pos with
    | some cp, some lp => decide (cp ≠ lp) && mouseButtonHeld cur
    | _, _ => false
  let keySignal :=
    if prev.keys.isEmpty then false
    else
      cur.keys.any (fun kv =>
        kv.2 && !(lookupKey prev.keys kv.1) && !(decide (kv.1 ∈ modifierKeys)))
  mouseSignal || keySignal

/-- The activity condition as the specification states it: click-qualified
pointer displacement, or an edge-triggered non-modifier key press. -/
def userActivitySpec (prev cur : InputSample) : Prop :=
  (∃ cp lp, cur.pos = some cp ∧ prev.pos = some lp ∧ cp ≠ lp ∧
    mouseButtonHeld cur = true) ∨
  (∃ vk, (vk, true) ∈ cur.keys ∧ lookupKey prev.keys vk = false ∧
    vk ∉ modifierKeys)

/-! ## Stationary-pointer detector -/

/-- The mode/widget flags `check_mouse_movement`, `hide_mouse` and
`show_mouse` consult. -/
structure OverlayFlags where
  isBlackboardMode : Bool
  isWhiteboardMode : Bool
  hasBlackboardWidget : Bool
  hasWhiteboardWidget : Bool
deriving Repr, DecidableEq

/-- State of the stationary-pointer detector: `mouse_hidden`,
`mouse_stationary_time` (modelled exactly, in milliseconds, where the source
accumulates `0.1` second floats) and `last_mouse_position`. -/
structure MouseState where
  mouseHidden : Bool
  stationaryMs : Nat
  lastPos : Option (Int × Int)
deriving Repr, DecidableEq

/-- Cursor signals sent to the overlay widgets. -/
inductive MouseSignal where
  | hidden
  | shown
deriving Repr, DecidableEq

/-- Embedding of `hide_mouse` (src/main.py lines 3946-3961): hides only when
an overlay mode with its widget is present; reports whether the cursor was
actually blanked. -/
def hideMouse (f : OverlayFlags) (s : MouseState) : MouseState × Bool :=
  if !s.mouseHidden then
    if f.isBlackboardMode && f.hasBlackboardWidget then
      ({ s with mouseHidden := true }, true)
    else if f.isWhiteboardMode && f.hasWhiteboardWidget then
      ({ s with mouseHidden := true }, true)
    else (s, false)
  else (s, false)

/-- Embedding of `show_mouse` (src/main.py lines 3963-3978). -/
def showMouse (f : OverlayFlags) (s : MouseState) : MouseState × Bool :=
  if s.mouseHidden then
    if f.isBlackboardMode && f.hasBlackboardWidget then
      ({ s with mouseHidden := false }, true)
    else if f.isWhiteboardMode && f.hasWhiteboardWidget then
      ({ s with mouseHidden := false }, true)
    else (s, false)
  else (s, false)

/-- Embedding of one `check_mouse_movement` tick (src/main.py lines
3911-3944), with `mouse_check_interval = 100` ms and `mouse_hide_delay =
2000` ms (lines 264-265).  `sample` is the `get_mouse_position` result. -/
def checkMouseMovement (f : OverlayFlags) (s : MouseState)
    (sample : Option (Int × Int)) : MouseState × Option MouseSignal :=
  if !f.isBlackboardMode && !f.isWhiteboardMode then (s, none)
  else
    match sample with
    | none => (s, none)
    | some p =>
      match s.lastPos with
      | none => ({ s with lastPos := some p }, none)
      | some lp =>
        if p ≠ lp then
          let s1 := { s with stationaryMs := 0, lastPos := some p }
          if s1.mouseHidden then
            let r := showMouse f s1
            (r.1, if r.2 then some .shown else none)
          else (s1, none)
        else
          let s1 := { s with stationaryMs := s.stationaryMs + 100 }
          if s1.stationaryMs ≥ 2000 && !s1.mouseHidden then
            let r := hideMouse f s1
            (r.1, if r.2 then some .hidden else none)
          else (s1, none)

/-- Run of the detector over a list of samples, collecting the signals. -/
def runMouse (f : OverlayFlags) (s : MouseState) :
    List (Option (Int × Int)) → MouseState × List MouseSignal
  | [] => (s, [])
  | x :: rest =>
    let r := checkMouseMovement f s x
    let t := runMouse f r.1 rest
    (t.1, (r.2.toList) ++ t.2)

/-! ## Concrete sample inputs used by counterexamples and witnesses -/

/-- Activity id for a lesson of node 0 with sequence number 1. -/
def idA01 : String := String.mk ['a', '0', '1']

/-- Activity id for a lesson of node 0 with sequence number 2. -/
def idA02 : String := String.mk ['a', '0', '2']

/-- Activity id for a break of node 0 with sequence number 1. -/
def idF01 : String := String.mk ['f', '0', '1']

/-- Activity id for a break of node 0 with sequence number 2. -/
def idF02 : String := String.mk ['f', '0', '2']

/-- A sample lesson name. -/
def lessonMath : String := "math"

/-- The empty string. -/
def emptyString : String := ""

/-- A node whose first entry in sorted order is a break: sequence 1 is the
break `f01`, sequence 2 the lesson `a02`. -/
def timelineBreakFirst : List (String × Int) := [(idF01, 10), (idA02, 40)]

/-- A node with a single two-hour lesson; anchored at 23:00 its span crosses
midnight. -/
def timelineWrap : List (String × Int) := [(idA01, 120)]

/-- A well-formed node: a 45-minute lesson followed by a 10-minute break. -/
def timelineNode : List (String × Int) := [(idA01, 45), (idF02, 10)]

/-- Plugin flags at the moment the C1 scenario's whiteboard rule fires: a
lesson is current, nothing triggered yet, no overlay mode active. -/
def ctxWhiteboardRule : AutoCtx :=
  { currentLessonName := some lessonMath, automationTriggered := false,
    isBlackboardMode := false, isWhiteboardMode := false,
    userActivityDetected := false }

/-- The rule `{time: 300, click: 'True', mode: 'whiteboard'}`. -/
def ruleClickTrue : LessonSettings :=
  { time := 300, click := trueLiteral, mode := modeWhiteboard }

/-- Plugin flags with the blackboard overlay already active. -/
def ctxAlreadyBlackboard : AutoCtx :=
  { currentLessonName := some lessonMath, automationTriggered := false,
    isBlackboardMode := true, isWhiteboardMode := false,
    userActivityDetected := false }

/-- The rule `{time: -60, click: 'False', mode: 'blackboard'}`. -/
def ruleRemainingBlackboard : LessonSettings :=
  { time := -60, click := falseLiteral, mode := modeBlackboard }

/-- Overlay flags with the blackboard overlay and its widget present. -/
def overlayBlackboard : OverlayFlags :=
  { isBlackboardMode := true, isWhiteboardMode := false,
    hasBlackboardWidget := true, hasWhiteboardWidget := false }

/-! ## General lemmas about the embedded definitions -/

theorem insertSorted_length (x : String × Int) (l : List (String × Int)) :
    (insertSorted x l).length = l.length + 1 := by
  induction l with
  | nil => rfl
  | cons y ys ih =>
    unfold insertSorted
    split
    · rfl
    · simpa [List.length_cons] using ih

theorem sortActivities_length (l : List (String × Int)) :
    (sortActivities l).length = l.length := by
  induction l with
  | nil => rfl
  | cons y ys ih =>
    show (insertSorted y (sortActivities ys)).length = ys.length + 1
    rw [insertSorted_length, ih]

theorem sortActivities_ne_nil (l : List (String × Int)) (h : l ≠ []) :
    sortActivities l ≠ [] := by
  intro hc
  apply h
  have := sortActivities_length l
  rw [hc] at this
  exact List.length_eq_zero.mp this.symm

theorem mem_insertSorted (x y : String × Int) (l : List (String × Int)) :
    x ∈ insertSorted y l ↔ x = y ∨ x ∈ l := by
  induction l with
  | nil => simp [insertSorted]
  | cons z zs ih =>
    unfold insertSorted
    split
    · simp [List.mem_cons]
    · simp only [List.mem_cons, ih]
      tauto

theorem mem_sortActivities (x : String × Int) (l : List (String × Int)) :
    x ∈ sortActivities l ↔ x ∈ l := by
  induction l with
  | nil => simp [sortActivities]
  | cons y ys ih =>
    show x ∈ insertSorted y (sortActivities ys) ↔ _
    rw [mem_insertSorted, ih]
    simp [List.mem_cons]

theorem windowsOf_wid_mem (l : List (String × Int)) (acc : Int) (w : Window)
    (h : w ∈ windowsOf acc l) : (w.wid, w.dur) ∈ l := by
  induction l generalizing acc with
  | nil => simp [windowsOf] at h
  | cons kv rest ih =>
    simp only [windowsOf, List.mem_cons] at h
    rcases h with h | h
    · subst h
      exact List.mem_cons_self _ _
    · exact List.mem_cons_of_mem _ (ih _ h)

/-! ## C10: current-mode query -/

/-- C10: `get_current_mode` always reports exactly one of the three mode
names, never an empty or combined mode, and when both underlying flags are
set it reports the blackboard mode. -/
theorem claim_c10_mode_exclusive :
    (∀ b w : Bool, getCurrentMode b w = modeBlackboard ∨
      getCurrentMode b w = modeWhiteboard ∨ getCurrentMode b w = modeNone) ∧
    getCurrentMode true true = modeBlackboard ∧
    (∀ b w : Bool, getCurrentMode b w ≠ emptyString) := by
  decide

/-! ## C5: progress percentage -/

/-- `roundRatio` agrees with Mathlib's `round` of the exact ratio. -/
theorem roundRatio_eq_round (num den : Int) (h : 0 < den) :
    roundRatio num den = round ((num : ℚ) / (den : ℚ)) := by
  have hden : ((den : ℚ)) ≠ 0 := by
    exact_mod_cast h.ne'
  have h2 : ((num : ℚ) / (den : ℚ) + 1 / 2) =
      ((2 * num + den : ℤ) : ℚ) / (((2 * den).toNat : ℕ) : ℚ) := by
    have ht : (((2 * den).toNat : ℤ) : ℚ) = ((2 * den : ℤ) : ℚ) := by
      rw [Int.toNat_of_nonneg (by omega)]
    push_cast at ht ⊢
    rw [ht]
    field_simp
    ring
  rw [round_eq, h2, Rat.floor_intCast_div_natCast,
    Int.toNat_of_nonneg (a := 2 * den) (by omega)]
  rfl

/-- The fuel-driven logarithm brackets its argument between consecutive
powers of two whenever the fuel covers it. -/
theorem natLog2Aux_spec (fuel : Nat) : ∀ m, 0 < m → m ≤ fuel →
    2 ^ natLog2Aux fuel m ≤ m ∧ m < 2 ^ (natLog2Aux fuel m + 1) := by
  induction fuel with
  | zero => intro m h0 hf; exact absurd (Nat.le_trans h0 hf) (by omega)
  | succ k ih =>
    intro m h0 hf
    by_cases h2 : m < 2
    · have hm : m = 1 := by omega
      subst hm
      simp [natLog2Aux]
    · have hd0 : 0 < m / 2 := by omega
      have hdk : m / 2 ≤ k := by omega
      obtain ⟨ih1, ih2⟩ := ih (m / 2) hd0 hdk
      simp only [natLog2Aux, if_neg h2]
      constructor
      · have hme : 2 ^ (natLog2Aux k (m / 2) + 1) =
            2 ^ natLog2Aux k (m / 2) * 2 := by ring
        omega
      · have hme : 2 ^ (natLog2Aux k (m / 2) + 1 + 1) =
            2 ^ (natLog2Aux k (m / 2) + 1) * 2 := by ring
        omega

/-- Lower bracket of `natLog2`. -/
theorem natLog2_self_le (n : Nat) (h : 0 < n) : 2 ^ natLog2 n ≤ n :=
  (natLog2Aux_spec n n h le_rfl).1

/-- Upper bracket of `natLog2`. -/
theorem natLog2_lt_self (n : Nat) (h : 0 < n) : n < 2 ^ (natLog2 n + 1) :=
  (natLog2Aux_spec n n h le_rfl).2

/-- `natLog2` is monotone on positive arguments. -/
theorem natLog2_mono (a b : Nat) (h0 : 0 < a) (hab : a ≤ b) :
    natLog2 a ≤ natLog2 b := by
  by_contra hc
  have h1 : natLog2 b + 1 ≤ natLog2 a := by omega
  have h2 : (2 : Nat) ^ (natLog2 b + 1) ≤ 2 ^ natLog2 a :=
    Nat.pow_le_pow_right (by norm_num) h1
  have h3 := natLog2_self_le a h0
  have h4 := natLog2_lt_self b (by omega)
  omega

/-- `natLog2` is bounded by any exponent whose power exceeds the
argument. -/
theorem natLog2_le_of_lt_pow (n c : Nat) (h0 : 0 < n) (h : n < 2 ^ (c + 1)) :
    natLog2 n ≤ c := by
  by_contra hc
  have h1 : c + 1 ≤ natLog2 n := by omega
  have h2 : (2 : Nat) ^ (c + 1) ≤ 2 ^ natLog2 n :=
    Nat.pow_le_pow_right (by norm_num) h1
  have h3 := natLog2_self_le n h0
  omega

/-- `natLog2` of a power of two. -/
theorem natLog2_two_pow (t : Nat) : natLog2 (2 ^ t) = t := by
  have hp : 0 < (2 : Nat) ^ t := pow_pos (by norm_num) t
  have h1 := natLog2_self_le (2 ^ t) hp
  have h2 := natLog2_lt_self (2 ^ t) hp
  have h3 : natLog2 (2 ^ t) ≤ t := (Nat.pow_le_pow_iff_right (by norm_num)).mp h1
  have h4 : t < natLog2 (2 ^ t) + 1 := (Nat.pow_lt_pow_iff_right (by norm_num)).mp h2
  omega

/-- Rounding to nearest exceeds the floor by at most one. -/
theorem roundMant_le (nn dd : Nat) : roundMant nn dd ≤ nn / dd + 1 := by
  simp only [roundMant]
  split_ifs <;> omega

/-- Rounding a ratio at most one to a double gives a negative scale `-t`
with `t ≥ 52` and a mantissa at most `2 ^ t + 1` (so a value barely above
one at worst); in particular the division never overflows. -/
theorem roundPosDouble_ratio_le_one (num den : Nat) (hnum : 0 < num)
    (hle : num ≤ den) :
    ∃ m t : Nat, roundPosDouble num den = some (m, -(t : Int)) ∧ 52 ≤ t ∧
      m ≤ 2 ^ t + 1 := by
  have hden : 0 < den := lt_of_lt_of_le hnum hle
  have he : dyExp num den ≤ 0 := by
    have hlog := natLog2_mono num den hnum hle
    simp only [dyExp]
    split <;> omega
  have hsc : roundScale (dyExp num den) ≤ -52 := by
    unfold roundScale
    split <;> omega
  have hb : roundAt num den (roundScale (dyExp num den)) ≤
      2 ^ (-(roundScale (dyExp num den))).toNat + 1 := by
    unfold roundAt
    have h0 : (roundScale (dyExp num den)).toNat = 0 := by omega
    rw [h0, pow_zero, mul_one]
    have h1 := roundMant_le (num * 2 ^ (-(roundScale (dyExp num den))).toNat) den
    have h2 : num * 2 ^ (-(roundScale (dyExp num den))).toNat / den ≤
        2 ^ (-(roundScale (dyExp num den))).toNat := by
      have h3 : num * 2 ^ (-(roundScale (dyExp num den))).toNat / den ≤
          den * 2 ^ (-(roundScale (dyExp num den))).toNat / den :=
        Nat.div_le_div_right
          (Nat.mul_le_mul_right (2 ^ (-(roundScale (dyExp num den))).toNat) hle)
      rwa [Nat.mul_div_cancel_left _ hden] at h3
    omega
  have hovf : overflowCheck (roundAt num den (roundScale (dyExp num den)))
      (roundScale (dyExp num den)) = false := by
    unfold overflowCheck
    rw [if_neg (by omega)]
    simp only [decide_eq_false_iff_not, not_le]
    have hp1 : (2 : Nat) ^ ((-(roundScale (dyExp num den))).toNat + 1) <
        2 ^ (1024 + (-(roundScale (dyExp num den))).toNat) :=
      (Nat.pow_lt_pow_iff_right (by norm_num)).mpr (by omega)
    have hp2 : (2 : Nat) ^ ((-(roundScale (dyExp num den))).toNat + 1) =
        2 ^ (-(roundScale (dyExp num den))).toNat * 2 := by ring
    have hp0 : (0 : Nat) < 2 ^ (-(roundScale (dyExp num den))).toNat :=
      pow_pos (by norm_num) _
    omega
  have hcomp : roundPosDouble num den =
      some (roundAt num den (roundScale (dyExp num den)),
        roundScale (dyExp num den)) := by
    unfold roundPosDouble
    rw [if_neg (by omega : ¬ den = 0), if_neg (by omega : ¬ num = 0), hovf]
    simp
  refine ⟨roundAt num den (roundScale (dyExp num den)),
    (-(roundScale (dyExp num den))).toNat, ?_, by omega, hb⟩
  rw [hcomp]
  simp only [Option.some.injEq, Prod.mk.injEq]
  exact ⟨by trivial, by omega⟩

/-- Arithmetic core of the multiplication bound: a mantissa at most `A + 1`
times `100` stays, after scaling by `B`, strictly inside `101` units of
`A * B` with a margin of `2 * A`. -/
theorem aux_mul_bound (A B M : Nat) (hA : 256 ≤ A) (hB : 256 ≤ B)
    (hM : M ≤ A + 1) : M * 100 * B + 2 * A ≤ 101 * (A * B) := by
  have h1 : M * 100 * B ≤ 100 * (A * B) + 100 * B := by
    calc M * 100 * B ≤ (A + 1) * 100 * B :=
          Nat.mul_le_mul_right _ (Nat.mul_le_mul_right _ hM)
    _ = 100 * (A * B) + 100 * B := by ring
  have hB2 : B - 2 + 2 = B := by omega
  have h2 : A * B = A * (B - 2) + 2 * A := by
    calc A * B = A * ((B - 2) + 2) := by rw [hB2]
    _ = A * (B - 2) + 2 * A := by ring
  have h3 : 256 * (B - 2) ≤ A * (B - 2) := Nat.mul_le_mul_right _ hA
  have h5 : 100 * B ≤ 256 * (B - 2) := by omega
  omega

/-- Multiplying a ratio-at-most-one double by `100` yields a double with
negative scale `-t2` and mantissa strictly below `101 * 2 ^ t2` (so a value
strictly below `101`); in particular the product never overflows. -/
theorem roundPosDouble_mul100_lt (m1 t1 : Nat) (h52 : 52 ≤ t1) (hm1 : 0 < m1)
    (hle : m1 ≤ 2 ^ t1 + 1) :
    ∃ m2 t2 : Nat, roundPosDouble (m1 * 100) (2 ^ t1) = some (m2, -(t2 : Int)) ∧
      0 < t2 ∧ m2 < 101 * 2 ^ t2 := by
  have hApos : (0 : Nat) < 2 ^ t1 := pow_pos (by norm_num) t1
  have hA256 : (256 : Nat) ≤ 2 ^ t1 := by
    calc (256 : Nat) = 2 ^ 8 := by norm_num
    _ ≤ 2 ^ t1 := Nat.pow_le_pow_right (by norm_num) (by omega)
  have hn2pos : 0 < m1 * 100 := by omega
  have hnum_lt : m1 * 100 < 2 ^ (t1 + 8) := by
    have h1 : (2 : Nat) ^ (t1 + 8) = 2 ^ t1 * 256 := by ring
    omega
  have hlogn : natLog2 (m1 * 100) ≤ t1 + 7 := by
    refine natLog2_le_of_lt_pow _ _ hn2pos ?_
    have h1 : t1 + 7 + 1 = t1 + 8 := by omega
    rw [h1]
    exact hnum_lt
  have hlogd : natLog2 (2 ^ t1) = t1 := natLog2_two_pow t1
  have he : dyExp (m1 * 100) (2 ^ t1) ≤ 7 := by
    simp only [dyExp]
    split <;> omega
  have hsc : roundScale (dyExp (m1 * 100) (2 ^ t1)) ≤ -45 := by
    unfold roundScale
    split <;> omega
  have hsc0 : (roundScale (dyExp (m1 * 100) (2 ^ t1))).toNat = 0 := by omega
  have ht2 : 45 ≤ (-(roundScale (dyExp (m1 * 100) (2 ^ t1)))).toNat := by omega
  have hB256 : (256 : Nat) ≤ 2 ^ (-(roundScale (dyExp (m1 * 100) (2 ^ t1)))).toNat := by
    calc (256 : Nat) = 2 ^ 8 := by norm_num
    _ ≤ _ := Nat.pow_le_pow_right (by norm_num) (by omega)
  have hBpos : (0 : Nat) < 2 ^ (-(roundScale (dyExp (m1 * 100) (2 ^ t1)))).toNat :=
    pow_pos (by norm_num) _
  have hq : roundAt (m1 * 100) (2 ^ t1) (roundScale (dyExp (m1 * 100) (2 ^ t1))) ≤
      m1 * 100 * 2 ^ (-(roundScale (dyExp (m1 * 100) (2 ^ t1)))).toNat / 2 ^ t1 + 1 := by
    unfold roundAt
    rw [hsc0, pow_zero, mul_one]
    exact roundMant_le _ _
  have hqmul : m1 * 100 * 2 ^ (-(roundScale (dyExp (m1 * 100) (2 ^ t1)))).toNat / 2 ^ t1
      * 2 ^ t1 ≤ m1 * 100 * 2 ^ (-(roundScale (dyExp (m1 * 100) (2 ^ t1)))).toNat :=
    Nat.div_mul_le_self _ _
  have haux := aux_mul_bound (2 ^ t1)
    (2 ^ (-(roundScale (dyExp (m1 * 100) (2 ^ t1)))).toNat) m1 hA256 hB256 hle
  have hmb : roundAt (m1 * 100) (2 ^ t1) (roundScale (dyExp (m1 * 100) (2 ^ t1))) <
      101 * 2 ^ (-(roundScale (dyExp (m1 * 100) (2 ^ t1)))).toNat := by
    refine Nat.lt_of_mul_lt_mul_right (a := 2 ^ t1) ?_
    calc roundAt (m1 * 100) (2 ^ t1) (roundScale (dyExp (m1 * 100) (2 ^ t1))) * 2 ^ t1
        ≤ (m1 * 100 * 2 ^ (-(roundScale (dyExp (m1 * 100) (2 ^ t1)))).toNat / 2 ^ t1 + 1)
          * 2 ^ t1 := Nat.mul_le_mul_right _ hq
    _ = m1 * 100 * 2 ^ (-(roundScale (dyExp (m1 * 100) (2 ^ t1)))).toNat / 2 ^ t1 * 2 ^ t1
          + 2 ^ t1 := by ring
    _ ≤ m1 * 100 * 2 ^ (-(roundScale (dyExp (m1 * 100) (2 ^ t1)))).toNat + 2 ^ t1 := by
          omega
    _ < 101 * 2 ^ (-(roundScale (dyExp (m1 * 100) (2 ^ t1)))).toNat * 2 ^ t1 := by
          have h6 : 101 * (2 ^ t1 * 2 ^ (-(roundScale (dyExp (m1 * 100) (2 ^ t1)))).toNat)
              = 101 * 2 ^ (-(roundScale (dyExp (m1 * 100) (2 ^ t1)))).toNat * 2 ^ t1 := by
            ring
          omega
  have hovf : overflowCheck
      (roundAt (m1 * 100) (2 ^ t1) (roundScale (dyExp (m1 * 100) (2 ^ t1))))
      (roundScale (dyExp (m1 * 100) (2 ^ t1))) = false := by
    unfold overflowCheck
    rw [if_neg (by omega)]
    simp only [decide_eq_false_iff_not, not_le]
    have hp1 : (101 : Nat) * 2 ^ (-(roundScale (dyExp (m1 * 100) (2 ^ t1)))).toNat ≤
        2 ^ 7 * 2 ^ (-(roundScale (dyExp (m1 * 100) (2 ^ t1)))).toNat :=
      Nat.mul_le_mul_right _ (by norm_num)
    have hp2 : (2 : Nat) ^ 7 * 2 ^ (-(roundScale (dyExp (m1 * 100) (2 ^ t1)))).toNat =
        2 ^ (7 + (-(roundScale (dyExp (m1 * 100) (2 ^ t1)))).toNat) := by
      rw [pow_add]
    have hp3 : (2 : Nat) ^ (7 + (-(roundScale (dyExp (m1 * 100) (2 ^ t1)))).toNat) ≤
        2 ^ (1024 + (-(roundScale (dyExp (m1 * 100) (2 ^ t1)))).toNat) :=
      Nat.pow_le_pow_right (by norm_num) (by omega)
    omega
  have hcomp : roundPosDouble (m1 * 100) (2 ^ t1) =
      some (roundAt (m1 * 100) (2 ^ t1) (roundScale (dyExp (m1 * 100) (2 ^ t1))),
        roundScale (dyExp (m1 * 100) (2 ^ t1))) := by
    unfold roundPosDouble
    rw [if_neg (by omega : ¬ (2 : Nat) ^ t1 = 0), if_neg (by omega : ¬ m1 * 100 = 0), hovf]
    simp
  refine ⟨roundAt (m1 * 100) (2 ^ t1) (roundScale (dyExp (m1 * 100) (2 ^ t1))),
    (-(roundScale (dyExp (m1 * 100) (2 ^ t1)))).toNat, ?_, by omega, hmb⟩
  rw [hcomp]
  simp only [Option.some.injEq, Prod.mk.injEq]
  exact ⟨by trivial, by omega⟩

set_option maxRecDepth 4000

/-- C5 counterexample: for a started 3-minute segment with 60 seconds left
the code displays `int((120 / 180) * 100) = 66` while the claimed
round-to-nearest formula gives 67; and for a 5-minute segment with 213
seconds left the binary64 product `0.29 * 100 = 28.999999999999996`
truncates to 28 even though the exact ratio would floor to 29. -/
theorem claim_c5_counterexample :
    updateCountdownProgress (some 180) 60 = some 66 ∧
    updateCountdownProgressSpec (some 180) 60 = some 67 ∧
    updateCountdownProgress (some 300) 213 = some 28 ∧
    ((300 - 213) * 100) / (300 : Int) = 29 := by
  decide

/-- C5 (amended): for a started segment with `0 < total` and
`0 ≤ remaining ≤ total`, the displayed progress is the binary64 evaluation
of `((total - remaining) / total) * 100` truncated toward zero (Python
`int()`), not rounded to nearest; it always lies in `[0, 100]`, so the
clamp never changes it and the `OverflowError` path is never taken. -/
theorem claim_c5_truncated_progress (total remaining : Int)
    (h1 : 0 < total) (h2 : 0 ≤ remaining) (h3 : remaining ≤ total) :
    ∃ v, pyProgressValue total remaining = some v ∧
      updateCountdownProgress (some total) remaining = some v ∧
      0 ≤ v ∧ v ≤ 100 := by
  have hnl : ¬ (total - remaining < 0) := by omega
  have hle : (total - remaining).natAbs ≤ total.natAbs := by omega
  have hnb : ¬ total.natAbs = 0 := by omega
  suffices h : ∃ v, pyProgressValue total remaining = some v ∧ 0 ≤ v ∧ v ≤ 100 by
    obtain ⟨v, hv, hv0, hv100⟩ := h
    refine ⟨v, hv, ?_, hv0, hv100⟩
    simp only [updateCountdownProgress, if_pos h1, hv]
    rw [min_eq_right hv100, max_eq_right hv0]
  by_cases hna0 : (total - remaining).natAbs = 0
  · have hdiv : roundPosDouble (total - remaining).natAbs total.natAbs = some (0, 0) := by
      rw [hna0]
      unfold roundPosDouble
      rw [if_neg hnb]
      simp
    have hmul : roundPosDouble 0 1 = some (0, 0) := by decide
    refine ⟨0, ?_, le_rfl, by norm_num⟩
    simp [pyProgressValue, hdiv, hmul, hnl]
  · obtain ⟨m1, t1, hdiv, ht1, hm1le⟩ :=
      roundPosDouble_ratio_le_one _ _ (by omega) hle
    have hs1neg : ¬ ((0 : Int) ≤ -(t1 : Int)) := by omega
    have htoNat1 : (-(-(t1 : Int))).toNat = t1 := by omega
    by_cases hm10 : m1 = 0
    · subst hm10
      have hpne : ¬ (2 : Nat) ^ t1 = 0 := (pow_pos (by norm_num) t1).ne'
      have hmul : roundPosDouble 0 (2 ^ t1) = some (0, 0) := by
        unfold roundPosDouble
        rw [if_neg hpne]
        simp
      refine ⟨0, ?_, le_rfl, by norm_num⟩
      simp [pyProgressValue, hdiv, hs1neg, htoNat1, hmul, hnl]
    · obtain ⟨m2, t2, hmul, ht2, hm2lt⟩ :=
        roundPosDouble_mul100_lt m1 t1 ht1 (by omega) hm1le
      have hs2neg : ¬ ((0 : Int) ≤ -(t2 : Int)) := by omega
      have htoNat2 : (-(-(t2 : Int))).toNat = t2 := by omega
      have hvle : m2 / 2 ^ t2 ≤ 100 := by
        have hpos : 0 < (2 : Nat) ^ t2 := pow_pos (by norm_num) t2
        have hdl : m2 / 2 ^ t2 < 101 := (Nat.div_lt_iff_lt_mul hpos).mpr hm2lt
        omega
      refine ⟨((m2 / 2 ^ t2 : Nat) : Int), ?_, Int.natCast_nonneg _, by exact_mod_cast hvle⟩
      simp only [pyProgressValue, hdiv]
      rw [if_neg hs1neg, if_neg hs1neg, htoNat1, hmul]
      simp only []
      rw [if_neg hs2neg, htoNat2, if_neg hnl]

/-- C5 witness: the amended statement evaluated for a 300-second segment
with 213 seconds remaining, where the displayed value 28 differs from the
exact floor 29. -/
theorem claim_c5_witness :
    (0 : Int) < 300 ∧ (0 : Int) ≤ 213 ∧ (213 : Int) ≤ 300 ∧
    (∃ v, pyProgressValue 300 213 = some v ∧
      updateCountdownProgress (some 300) 213 = some v ∧ 0 ≤ v ∧ v ≤ 100) :=
  ⟨by decide, by decide, by decide,
    claim_c5_truncated_progress 300 213 (by decide) (by decide) (by decide)⟩

/-! ## C4: remaining-time trigger with unavailable remaining seconds -/

/-- C4 counterexample: rule `{time: -60, click: 'False', mode: 'blackboard'}`
with the blackboard overlay already active and remaining time unavailable —
no window opens and no transition occurs, but the mode pre-check sets the
`automation_triggered` flag, so the flag is not left unchanged. -/
theorem claim_c4_counterexample :
    checkAutomationTrigger ctxAlreadyBlackboard
      [(lessonMath, ruleRemainingBlackboard)] noneInfo 0 =
      TrigResult.skip true ∧
    (applyTrigResult ctxAlreadyBlackboard
      (TrigResult.skip true)).1.automationTriggered = true ∧
    ctxAlreadyBlackboard.automationTriggered = false ∧
    (applyTrigResult ctxAlreadyBlackboard (TrigResult.skip true)).2 = none := by
  decide

/-- C4 (amended): for a rule with non-positive trigger offset, when the
remaining-seconds value is unavailable the engine never fires — no
confirmation window opens and no transition occurs (the `None <= int`
comparison raises `TypeError`, which `handle_automation` catches) — and the
triggered flag is left unchanged unless the current mode already equals the
rule's target mode, in which case the pre-check sets it without firing. -/
theorem claim_c4_no_fire_when_remaining_unavailable (ctx : AutoCtx)
    (settings : List (String × LessonSettings))
    (ti : Option Int × Option Int × Option String × Option Int)
    (elapsed : Int) (name : String) (ls : LessonSettings)
    (hname : ctx.currentLessonName = some name)
    (hlk : settings.lookup name = some ls)
    (hoff : ls.time ≤ 0) (hrem : ti.2.1 = none) :
    (applyTrigResult ctx (checkAutomationTrigger ctx settings ti elapsed)).2 =
      none ∧
    ((applyTrigResult ctx
        (checkAutomationTrigger ctx settings ti elapsed)).1.automationTriggered
        = ctx.automationTriggered ∨
      getCurrentMode ctx.isBlackboardMode ctx.isWhiteboardMode = ls.mode) := by
  have hnp : ¬ ls.time > 0 := by omega
  by_cases hemp : name.isEmpty
  · simp [checkAutomationTrigger, hname, hemp, applyTrigResult]
  · by_cases htr : ctx.automationTriggered
    · simp [checkAutomationTrigger, hname, hemp, htr, applyTrigResult]
    · by_cases hmode : getCurrentMode ctx.isBlackboardMode
          ctx.isWhiteboardMode = ls.mode
      · simp [checkAutomationTrigger, hname, hemp, htr, hlk, hmode,
          applyTrigResult]
      · simp [checkAutomationTrigger, hname, hemp, htr, hlk, hmode, hnp,
          hrem, applyTrigResult, beq_iff_eq]

/-- C4 witness: the amended statement evaluated for the `-60`-offset rule
with no overlay active and the all-`None` time info. -/
theorem claim_c4_witness :
    ctxWhiteboardRule.currentLessonName = some lessonMath ∧
    (applyTrigResult ctxWhiteboardRule
      (checkAutomationTrigger ctxWhiteboardRule
        [(lessonMath, ruleRemainingBlackboard)] noneInfo 0)).2 = none :=
  ⟨by decide,
    (claim_c4_no_fire_when_remaining_unavailable ctxWhiteboardRule
      [(lessonMath, ruleRemainingBlackboard)] noneInfo 0 lessonMath
      ruleRemainingBlackboard (by decide) (by decide) (by decide)
      (by decide)).1⟩

/-! ## C1: activity during the confirmation window -/

/-- One event step never touches the switch log or re-arms the deadline
once the deadline timer is inactive. -/
theorem wstep_disarmed (s : WinState) (e : WEv) (h : s.tipActive = false) :
    (wstep s e).switched = s.switched ∧ (wstep s e).tipActive = false := by
  cases e with
  | activity => exact ⟨rfl, h⟩
  | rtick =>
    by_cases hrt : s.realtimeActive
    · by_cases hv : s.tipVisible <;>
        by_cases hf : s.activityFlag <;>
          simp [wstep, checkRealtimeUserActivity, handleImmediateInterruption,
            closeTipWindowFn, hrt, hv, hf, h]
    · simp [wstep, hrt, h]
  | timeout => simp [wstep, h]

/-- Once the deadline timer is inactive, no sequence of events ever changes
the switch log: the mode transition cannot run any more. -/
theorem runWin_disarmed (evs : List WEv) (s : WinState)
    (h : s.tipActive = false) :
    (runWin s evs).switched = s.switched ∧ (runWin s evs).tipActive = false := by
  induction evs generalizing s with
  | nil => exact ⟨rfl, h⟩
  | cons e rest ih =>
    have h1 := wstep_disarmed s e h
    have h2 := ih (wstep s e) h1.2
    exact ⟨h2.1.trans h1.1, h2.2⟩

/-- While armed with no recorded activity, realtime ticks change nothing. -/
theorem wstep_rtick_armed (s : WinState) (hv : s.tipVisible = true)
    (hf : s.activityFlag = false) : wstep s WEv.rtick = s := by
  by_cases hrt : s.realtimeActive <;>
    simp [wstep, checkRealtimeUserActivity, hrt, hv, hf]

/-- An armed run that sees no activity commits exactly once: the switch log
gains one entry for the saved mode if the deadline fires during the run, and
nothing otherwise. -/
theorem runWin_armed_no_activity (m : String) (evs : List WEv) (s : WinState)
    (hv : s.tipVisible = true) (ha : s.tipActive = true)
    (hf : s.activityFlag = false) (hm : s.mode = some m)
    (hno : WEv.activity ∉ evs) :
    (runWin s evs).switched =
      s.switched ++ (if evs.any (fun e => e == WEv.timeout) then [m]
        else []) := by
  induction evs generalizing s with
  | nil => simp [runWin]
  | cons e rest ih =>
    have hne : e ≠ WEv.activity := by
      intro hc
      exact hno (hc ▸ List.mem_cons_self e rest)
    have hnr : WEv.activity ∉ rest := fun hc =>
      hno (List.mem_cons_of_mem e hc)
    cases e with
    | activity => exact absurd rfl hne
    | rtick =>
      rw [show runWin s (WEv.rtick :: rest) =
        runWin (wstep s WEv.rtick) rest from rfl, wstep_rtick_armed s hv hf,
        ih s hv ha hf hm hnr]
      simp
    | timeout =>
      have hstep : wstep s WEv.timeout =
          closeTipWindowFn
            { s with
                tipActive := false
                realtimeActive := false
                switched := s.switched ++ [m] } := by
        simp [wstep, onTipTimeout, ha, hf, hm]
      have hdis := runWin_disarmed rest (wstep s WEv.timeout)
        (by rw [hstep]; rfl)
      rw [show runWin s (WEv.timeout :: rest) =
        runWin (wstep s WEv.timeout) rest from rfl] at *
      rw [hdis.1, hstep]
      simp [closeTipWindowFn]

/-- C1 counterexample: the rule `{time: 300, click: 'True', mode:
'whiteboard'}` fires and opens the confirmation window, an activity sample
arrives, and the next 20 ms realtime check cancels: the window closes before
the deadline and when the deadline would elapse no transition runs at all
(the switch log stays empty and the interruption notice is shown instead),
contradicting "stays armed for the whole wait window, transition executed
exactly once". -/
theorem claim_c1_counterexample :
    ruleClickTrue.click = trueLiteral ∧
    checkAutomationTrigger ctxWhiteboardRule [(lessonMath, ruleClickTrue)]
      (some 2700, some 2400, some idA01, some 1) 300 =
      TrigResult.fired modeWhiteboard ∧
    (runWin (showTipWindow modeWhiteboard winInit)
      [WEv.activity, WEv.rtick]).tipVisible = false ∧
    (runWin (showTipWindow modeWhiteboard winInit)
      [WEv.activity, WEv.rtick, WEv.timeout]).switched = [] ∧
    (runWin (showTipWindow modeWhiteboard winInit)
      [WEv.activity, WEv.rtick, WEv.timeout]).interruptedNotice = true := by
  decide

/-- C1 (amended): the wait-window behaviour does not depend on the rule's
`requiresIgnoreInterrupt` (click) setting.  After the window opens: a run
without activity samples executes the transition exactly once — when the
5000 ms deadline fires — and a recorded activity sample followed by a
realtime check cancels the window, after which no event can ever execute
the transition. -/
theorem claim_c1_cancel_regardless_of_click (m : String) (s0 : WinState)
    (evs evs2 : List WEv) (hno : WEv.activity ∉ evs) :
    ((runWin (showTipWindow m s0) evs).switched =
      s0.switched ++ (if evs.any (fun e => e == WEv.timeout) then [m]
        else [])) ∧
    (runWin (showTipWindow m s0)
      (WEv.activity :: WEv.rtick :: evs2)).switched = s0.switched ∧
    (runWin (showTipWindow m s0)
      (WEv.activity :: WEv.rtick :: evs2)).tipActive = false := by
  refine ⟨?_, ?_⟩
  · exact runWin_armed_no_activity m evs (showTipWindow m s0) rfl rfl rfl rfl
      hno
  · have hstep : wstep (wstep (showTipWindow m s0) WEv.activity) WEv.rtick =
        handleImmediateInterruption
          { showTipWindow m s0 with activityFlag := true } := by
      simp [wstep, showTipWindow, closeTipWindowFn, checkRealtimeUserActivity]
    have hdis := runWin_disarmed evs2
      (wstep (wstep (showTipWindow m s0) WEv.activity) WEv.rtick)
      (by rw [hstep]; rfl)
    have hrun : runWin (showTipWindow m s0)
        (WEv.activity :: WEv.rtick :: evs2) =
        runWin (wstep (wstep (showTipWindow m s0) WEv.activity) WEv.rtick)
          evs2 := rfl
    rw [hrun, hdis.1, hstep]
    exact ⟨rfl, hdis.2⟩

/-- C1 witness: the amended statement evaluated for the whiteboard mode, an
idle initial state, a deadline-only run and an empty tail. -/
theorem claim_c1_witness :
    WEv.activity ∉ [WEv.rtick, WEv.timeout] ∧
    (runWin (showTipWindow modeWhiteboard winInit)
      [WEv.rtick, WEv.timeout]).switched =
      winInit.switched ++
        (if [WEv.rtick, WEv.timeout].any (fun e => e == WEv.timeout) then
          [modeWhiteboard] else []) :=
  ⟨by decide,
    (claim_c1_cancel_regardless_of_click modeWhiteboard winInit
      [WEv.rtick, WEv.timeout] [] (by decide)).1⟩

/-! ## C2: resolution before the node starts -/

/-- C2 counterexample: in a node whose sorted schedule begins with the break
`f01` (sequence 1) followed by the lesson `a02` (sequence 2), a query one
minute before the anchor returns the break `f01` — not the first
lesson-type entry `a02` — with the `NotStarted` sentinel and the exact
remaining time. -/
theorem claim_c2_counterexample :
    getCurrentActivityTimeInfo 28740 (some 28800, 0) timelineBreakFirst =
      (none, some 60, some idF01, some 0) ∧
    isLessonId idF01 = false ∧
    (sortActivities (nodeActivitiesOf timelineBreakFirst 0)).find?
      (fun kv => isLessonId kv.1) = some (idA02, 40) := by
  decide

/-- C2 (amended): when `now` is strictly before the node anchor, the
timed-segment resolution returns the first entry of the node's sorted
schedule — whatever its type, lesson or break — with
`totalSeconds = None` (the `NotStarted` sentinel), `remainingSeconds`
exactly `nodeStart - now`, and break state 0. -/
theorem claim_c2_pending_first_entry (currentTime nodeStart idx : Nat)
    (timeline : List (String × Int))
    (hne : nodeActivitiesOf timeline idx ≠ [])
    (hlt : currentTime < nodeStart) :
    ∃ kv, (sortActivities (nodeActivitiesOf timeline idx)).head? = some kv ∧
      getCurrentActivityTimeInfo currentTime (some nodeStart, idx) timeline =
        (none, some ((nodeStart : Int) - (currentTime : Int)), some kv.1,
         some 0) := by
  obtain ⟨kv, t, hs⟩ : ∃ kv t,
      sortActivities (nodeActivitiesOf timeline idx) = kv :: t := by
    cases h : sortActivities (nodeActivitiesOf timeline idx) with
    | nil => exact absurd h (sortActivities_ne_nil _ hne)
    | cons kv t => exact ⟨kv, t, rfl⟩
  refine ⟨kv, by rw [hs]; rfl, ?_⟩
  have hmax : max 0 ((nodeStart : Int) - (currentTime : Int)) =
      (nodeStart : Int) - (currentTime : Int) := max_eq_right (by omega)
  have hae : (nodeActivitiesOf timeline idx).isEmpty = false := by
    simp [List.isEmpty_eq_false, hne]
  simp only [getCurrentActivityTimeInfo, hae, hs, hlt, hmax, if_true,
    if_false, Bool.false_eq_true, List.head?_cons]

/-- C2 witness: the amended statement evaluated one minute before an 08:00
anchor of a lesson-then-break node. -/
theorem claim_c2_witness :
    nodeActivitiesOf timelineNode 0 ≠ [] ∧
    ∃ kv, (sortActivities (nodeActivitiesOf timelineNode 0)).head? =
        some kv ∧
      getCurrentActivityTimeInfo 28740 (some 28800, 0) timelineNode =
        (none, some (((28800 : Nat) : Int) - ((28740 : Nat) : Int)),
         some kv.1, some 0) :=
  ⟨by decide,
    claim_c2_pending_first_entry 28740 28800 0 timelineNode (by decide)
      (by decide)⟩

/-! ## C3: coverage of the node span and the gap fallback -/

/-- Whenever `now` lies at or after the first window's start and strictly
before the accumulated node end, some window of the chain contains it: the
windows tile the span with no gap. -/
theorem windowsOf_find_cover (l : List (String × Int)) (acc : Int) (now : Nat)
    (h1 : l ≠ []) (h2 : timeOfDay acc ≤ now) (h3 : now < nodeEndOf acc l) :
    ∃ w, (windowsOf acc l).find? (containsTime now) = some w := by
  induction l generalizing acc with
  | nil => exact absurd rfl h1
  | cons kv rest ih =>
    by_cases hc : containsTime now
        { wid := kv.1, dur := kv.2, start := timeOfDay acc,
          stop := timeOfDay (acc + kv.2 * 60) } = true
    · exact ⟨_, by simp only [windowsOf]; rw [List.find?_cons_of_pos _ hc]⟩
    · have hstop : timeOfDay (acc + kv.2 * 60) ≤ now := by
        by_contra hx
        apply hc
        simp only [containsTime, Bool.and_eq_true, decide_eq_true_eq]
        omega
      have h3' : now < nodeEndOf (acc + kv.2 * 60) rest := h3
      cases rest with
      | nil =>
        exfalso
        have : nodeEndOf (acc + kv.2 * 60) ([] : List (String × Int)) =
          timeOfDay (acc + kv.2 * 60) := rfl
        omega
      | cons r rs =>
        obtain ⟨w, hw⟩ := ih (acc + kv.2 * 60) (by simp) hstop h3'
        refine ⟨w, ?_⟩
        simp only [windowsOf]
        rw [List.find?_cons_of_neg _ hc]
        exact hw

/-- C3 counterexample: a node anchored at 23:00 with a single two-hour
lesson.  At 23:30 the instant lies inside the node's real span
(`23:00 ≤ 23:30 < 23:00 + 120 min`), yet — because the end time wraps past
midnight to 01:00 — no computed `[start, stop)` window contains it; the
timed-segment resolution then reports no segment (the all-`None` tuple)
instead of falling back to the last lesson-type entry `a01`. -/
theorem claim_c3_counterexample :
    getCurrentActivityTimeInfo 84600 (some 82800, 0) timelineWrap =
      noneInfo ∧
    82800 ≤ 84600 ∧ (84600 : Int) < 82800 + 120 * 60 ∧
    (windowsOf (82800 : Int)
      (sortActivities (nodeActivitiesOf timelineWrap 0))).find?
      (containsTime 84600) = none ∧
    (sortActivities (nodeActivitiesOf timelineWrap 0)).reverse.find?
      (fun kv => isLessonId kv.1) = some (idA01, 120) := by
  decide

/-- C3 (amended): within a node the computed windows tile the span with no
gaps, so for every `now` with `nodeStart ≤ now < nodeEnd` (as times of day)
the timed-segment resolution finds a containing window and returns that
segment — it never reaches the no-window branch there, and that branch
would return the all-`None` tuple (no segment), not a last-lesson fallback
(which exists only in the highlight resolution). -/
theorem claim_c3_no_gap_in_node (currentTime nodeStart idx : Nat)
    (timeline : List (String × Int))
    (hne : nodeActivitiesOf timeline idx ≠ [])
    (h86 : nodeStart < 86400) (hge : nodeStart ≤ currentTime)
    (hlt : currentTime < nodeEndOf (nodeStart : Int)
      (sortActivities (nodeActivitiesOf timeline idx))) :
    ∃ w, (windowsOf (nodeStart : Int)
        (sortActivities (nodeActivitiesOf timeline idx))).find?
        (containsTime currentTime) = some w ∧
      getCurrentActivityTimeInfo currentTime (some nodeStart, idx) timeline =
        (some (w.dur * 60),
         some (max 0 ((w.stop : Int) - (currentTime : Int))),
         some w.wid, some (if isBreakId w.wid then 0 else 1)) := by
  have hsne := sortActivities_ne_nil _ hne
  have htod : timeOfDay ((nodeStart : Nat) : Int) = nodeStart := by
    unfold timeOfDay
    omega
  obtain ⟨w, hw⟩ := windowsOf_find_cover _ ((nodeStart : Nat) : Int)
    currentTime hsne (by rw [htod]; exact hge) hlt
  refine ⟨w, hw, ?_⟩
  have hae : (nodeActivitiesOf timeline idx).isEmpty = false := by
    simp [List.isEmpty_eq_false, hne]
  have hnlt : ¬ currentTime < nodeStart := by omega
  have hnle : ¬ (nodeEndOf ((nodeStart : Nat) : Int)
      (sortActivities (nodeActivitiesOf timeline idx)) ≤ currentTime) := by
    omega
  simp only [getCurrentActivityTimeInfo, hae, hw, if_neg hnlt, if_neg hnle,
    Bool.false_eq_true, if_false]

/-- C3 witness: the amended statement evaluated in the middle of the lesson
of an 08:00-anchored node. -/
theorem claim_c3_witness :
    nodeActivitiesOf timelineNode 0 ≠ [] ∧
    ∃ w, (windowsOf ((28800 : Nat) : Int)
        (sortActivities (nodeActivitiesOf timelineNode 0))).find?
        (containsTime 30000) = some w ∧
      getCurrentActivityTimeInfo 30000 (some 28800, 0) timelineNode =
        (some (w.dur * 60), some (max 0 ((w.stop : Int) - (30000 : Int))),
         some w.wid, some (if isBreakId w.wid then 0 else 1)) :=
  ⟨by decide,
    claim_c3_no_gap_in_node 30000 28800 0 timelineNode (by decide)
      (by decide) (by decide) (by decide)⟩

/-! ## C7: contiguity of the per-entry windows -/

/-- The first window of a chain starts at the accumulated start time. -/
theorem windowsOf_head_start (l : List (String × Int)) (acc : Int)
    (w : Window) (h : (windowsOf acc l)[0]? = some w) :
    w.start = timeOfDay acc := by
  cases l with
  | nil => simp [windowsOf] at h
  | cons kv rest =>
    simp only [windowsOf, List.getElem?_cons_zero, Option.some.injEq] at h
    rw [← h]

/-- Adjacent windows of a chain share their boundary. -/
theorem windowsOf_adjacent (l : List (String × Int)) (acc : Int) (i : Nat)
    (w1 w2 : Window) (h1 : (windowsOf acc l)[i]? = some w1)
    (h2 : (windowsOf acc l)[i + 1]? = some w2) : w1.stop = w2.start := by
  induction l generalizing acc i with
  | nil => simp [windowsOf] at h1
  | cons kv rest ih =>
    cases i with
    | zero =>
      simp only [windowsOf, List.getElem?_cons_zero, Option.some.injEq] at h1
      have h2' : (windowsOf (acc + kv.2 * 60) rest)[0]? = some w2 := by
        simpa [windowsOf] using h2
      rw [← h1, windowsOf_head_start rest _ w2 h2']
    | succ n =>
      exact ih (acc + kv.2 * 60) n (by simpa [windowsOf] using h1)
        (by simpa [windowsOf] using h2)

/-- C7: the per-entry windows computed from the node anchor over the sorted
entries are contiguous — every adjacent pair shares its boundary — and the
first window starts exactly at the node anchor's start time. -/
theorem claim_c7_contiguous_windows (timeline : List (String × Int))
    (idx nodeStart i : Nat) (w1 w2 : Window) (h86 : nodeStart < 86400)
    (h1 : (windowsOf ((nodeStart : Nat) : Int)
      (sortActivities (nodeActivitiesOf timeline idx)))[i]? = some w1)
    (h2 : (windowsOf ((nodeStart : Nat) : Int)
      (sortActivities (nodeActivitiesOf timeline idx)))[i + 1]? = some w2) :
    w1.stop = w2.start ∧
    ∀ w0, (windowsOf ((nodeStart : Nat) : Int)
      (sortActivities (nodeActivitiesOf timeline idx)))[0]? = some w0 →
      w0.start = nodeStart := by
  refine ⟨windowsOf_adjacent _ _ i w1 w2 h1 h2, ?_⟩
  intro w0 h0
  rw [windowsOf_head_start _ _ w0 h0]
  unfold timeOfDay
  omega

/-- C7 witness: the contiguity statement evaluated on the lesson-then-break
node anchored at 08:00; the lesson's window ends exactly where the break's
window starts. -/
theorem claim_c7_witness :
    (28800 : Nat) < 86400 ∧
    ((Window.mk idA01 45 28800 31500).stop =
      (Window.mk idF02 10 31500 32100).start ∧
     ∀ w0, (windowsOf ((28800 : Nat) : Int)
       (sortActivities (nodeActivitiesOf timelineNode 0)))[0]? = some w0 →
       w0.start = 28800) :=
  ⟨by decide,
    claim_c7_contiguous_windows timelineNode 0 28800 0
      (Window.mk idA01 45 28800 31500) (Window.mk idF02 10 31500 32100)
      (by decide) (by decide) (by decide)⟩

/-! ## C6: highlight resolution never returns a break -/

/-- Any id produced by the in-window search belongs to the window chain and
is either a non-break hit or a lesson found by the look-ahead. -/
theorem searchCurrentActivity_some (now : Nat) (ws : List Window)
    (i : String) (h : searchCurrentActivity now ws = some i) :
    (∃ w ∈ ws, w.wid = i) ∧
    (isBreakId i = false ∨ isLessonId i = true) := by
  induction ws with
  | nil => simp [searchCurrentActivity] at h
  | cons w rest ih =>
    by_cases hc : containsTime now w = true
    · rw [searchCurrentActivity, if_pos hc] at h
      by_cases hb : isBreakId w.wid = true
      · rw [if_pos hb] at h
        cases hf : rest.find? (fun v => isLessonId v.wid) with
        | none => rw [hf] at h; simp at h
        | some v =>
          rw [hf] at h
          have hvi : v.wid = i := by simpa using h
          subst hvi
          refine ⟨⟨v, List.mem_cons_of_mem _
            (List.mem_of_find?_eq_some hf), rfl⟩, Or.inr ?_⟩
          simpa using List.find?_some hf
      · rw [if_neg hb] at h
        simp only [Option.some.injEq] at h
        subst h
        exact ⟨⟨w, List.mem_cons_self _ _, rfl⟩,
          Or.inl (eq_false_of_ne_true hb)⟩
    · rw [searchCurrentActivity, if_neg hc] at h
      obtain ⟨⟨v, hv, hvi⟩, hd⟩ := ih h
      exact ⟨⟨v, List.mem_cons_of_mem _ hv, hvi⟩, hd⟩

/-- C6: under the data-model invariant that every entry of the requested
node is lesson-typed or break-typed, the highlight resolution never yields
a break: it returns `None` or a lesson-type id of the requested node. -/
theorem claim_c6_highlight_never_break (currentTime : Nat)
    (currentPart : Option Nat × Nat) (timeline : List (String × Int))
    (hwf : ∀ kv ∈ nodeActivitiesOf timeline currentPart.2,
      isLessonId kv.1 = true ∨ isBreakId kv.1 = true) :
    calculateCurrentCourse currentTime currentPart timeline = none ∨
    ∃ i, calculateCurrentCourse currentTime currentPart timeline = some i ∧
      isLessonId i = true ∧
      ∃ d, (i, d) ∈ nodeActivitiesOf timeline currentPart.2 := by
  obtain ⟨anchor, idx⟩ := currentPart
  cases anchor with
  | none => exact Or.inl rfl
  | some nodeStart =>
    show calculateCurrentCourse currentTime (some nodeStart, idx) timeline =
      none ∨ _
    simp only [calculateCurrentCourse]
    by_cases hae : (nodeActivitiesOf timeline idx).isEmpty
    · rw [if_pos hae]
      exact Or.inl rfl
    · rw [if_neg hae]
      by_cases hlt : currentTime < nodeStart
      · rw [if_pos hlt]
        cases hf : (sortActivities (nodeActivitiesOf timeline idx)).find?
            (fun kv => isLessonId kv.1) with
        | none => exact Or.inl rfl
        | some kv =>
          refine Or.inr ⟨kv.1, rfl, ?_, kv.2, ?_⟩
          · simpa using List.find?_some hf
          · exact (mem_sortActivities kv _).mp (List.mem_of_find?_eq_some hf)
      · rw [if_neg hlt]
        by_cases hend : nodeEndOf ((nodeStart : Nat) : Int)
            (sortActivities (nodeActivitiesOf timeline idx)) ≤ currentTime
        · rw [if_pos hend]
          exact Or.inl rfl
        · rw [if_neg hend]
          cases hs : searchCurrentActivity currentTime
              (windowsOf ((nodeStart : Nat) : Int)
                (sortActivities (nodeActivitiesOf timeline idx))) with
          | some i =>
            obtain ⟨⟨w, hwmem, hwid⟩, hd⟩ :=
              searchCurrentActivity_some _ _ _ hs
            have hmem : (i, w.dur) ∈ nodeActivitiesOf timeline idx := by
              have := windowsOf_wid_mem _ _ _ hwmem
              rw [hwid] at this
              exact (mem_sortActivities _ _).mp this
            have hlesson : isLessonId i = true := by
              rcases hd with hd | hd
              · rcases hwf (i, w.dur) hmem with hl | hb
                · exact hl
                · rw [hd] at hb
                  exact absurd hb (by simp)
              · exact hd
            exact Or.inr ⟨i, rfl, hlesson, w.dur, hmem⟩
          | none =>
            cases hf : (sortActivities
                (nodeActivitiesOf timeline idx)).reverse.find?
                (fun kv => isLessonId kv.1) with
            | none => exact Or.inl rfl
            | some kv =>
              refine Or.inr ⟨kv.1, rfl, ?_, kv.2, ?_⟩
              · simpa using List.find?_some hf
              · have := List.mem_of_find?_eq_some hf
                rw [List.mem_reverse] at this
                exact (mem_sortActivities kv _).mp this

/-- C6 witness: in the lesson-then-break node at 08:50 (inside the trailing
break) the highlight resolution returns the lesson `a01`, not the break. -/
theorem claim_c6_witness :
    (∀ kv ∈ nodeActivitiesOf timelineNode 0,
      isLessonId kv.1 = true ∨ isBreakId kv.1 = true) ∧
    (calculateCurrentCourse 31800 (some 28800, 0) timelineNode = none ∨
     ∃ i, calculateCurrentCourse 31800 (some 28800, 0) timelineNode =
        some i ∧ isLessonId i = true ∧
        ∃ d, (i, d) ∈ nodeActivitiesOf timelineNode 0) :=
  ⟨by decide,
    claim_c6_highlight_never_break 31800 (some 28800, 0) timelineNode
      (by decide)⟩

/-! ## C8: input-activity predicate -/

/-- C8: for a pair of consecutive samples (with the previous key query
successful, i.e. non-empty), the monitor signals activity exactly when
either the pointer moved with a button concurrently held, or some polled key
code makes an unpressed-to-pressed transition and is not one of the
modifier keys. -/
theorem claim_c8_activity_iff (prev cur : InputSample)
    (hk : prev.keys ≠ []) :
    checkUserActivity prev cur = true ↔ userActivitySpec prev cur := by
  have hke : prev.keys.isEmpty = false := by
    simp [List.isEmpty_eq_false, hk]
  unfold checkUserActivity userActivitySpec
  simp only [hke, Bool.false_eq_true, if_false, Bool.or_eq_true,
    List.any_eq_true, Bool.and_eq_true, Bool.not_eq_true',
    decide_eq_true_eq, decide_eq_false_iff_not]
  constructor
  · rintro (hm | ⟨⟨vk, b⟩, hmem, ⟨hb, hlk⟩, hnm⟩)
    · left
      cases hcp : cur.pos with
      | none => rw [hcp] at hm; simp at hm
      | some cp =>
        cases hpp : prev.pos with
        | none => rw [hcp, hpp] at hm; simp at hm
        | some lp =>
          rw [hcp, hpp] at hm
          simp only [Bool.and_eq_true, decide_eq_true_eq] at hm
          exact ⟨cp, lp, rfl, rfl, hm.1, hm.2⟩
    · right
      subst hb
      exact ⟨vk, hmem, hlk, hnm⟩
  · rintro (⟨cp, lp, hcp, hpp, hne, hbh⟩ | ⟨vk, hmem, hlk, hnm⟩)
    · left
      rw [hcp, hpp]
      simp [hne, hbh]
    · right
      exact ⟨(vk, true), hmem, ⟨rfl, hlk⟩, hnm⟩

/-- C8 witness: the statement evaluated for a sample pair where the only
change is the key 65 (`A`) going from unpressed to pressed. -/
theorem claim_c8_witness :
    (InputSample.mk (some (0, 0)) [(65, false)]).keys ≠ [] ∧
    (checkUserActivity (InputSample.mk (some (0, 0)) [(65, false)])
        (InputSample.mk (some (0, 0)) [(65, true)]) = true ↔
      userActivitySpec (InputSample.mk (some (0, 0)) [(65, false)])
        (InputSample.mk (some (0, 0)) [(65, true)])) :=
  ⟨by decide,
    claim_c8_activity_iff (InputSample.mk (some (0, 0)) [(65, false)])
      (InputSample.mk (some (0, 0)) [(65, true)]) (by decide)⟩

/-! ## C9: stationary-pointer detector -/

/-- The overlay-present condition: some overlay mode is active and its
widget exists, so `hide_mouse` / `show_mouse` can act. -/
def overlayActive (f : OverlayFlags) : Bool :=
  (f.isBlackboardMode && f.hasBlackboardWidget) ||
    (f.isWhiteboardMode && f.hasWhiteboardWidget)

/-- With an overlay mode and its widget present, `hide_mouse` on a visible
cursor always blanks it. -/
theorem hideMouse_overlay (f : OverlayFlags) (s : MouseState)
    (hov : overlayActive f = true) (hs : s.mouseHidden = false) :
    hideMouse f s = ({ s with mouseHidden := true }, true) := by
  unfold hideMouse
  by_cases hb : (f.isBlackboardMode && f.hasBlackboardWidget) = true
  · simp [hs, hb]
  · have hw : (f.isWhiteboardMode && f.hasWhiteboardWidget) = true := by
      unfold overlayActive at hov
      rcases (Bool.or_eq_true _ _).mp hov with h | h
      · exact absurd h hb
      · exact h
    simp [hs, hb, hw]

/-- With an overlay mode and its widget present, `show_mouse` on a hidden
cursor always restores it. -/
theorem showMouse_overlay (f : OverlayFlags) (s : MouseState)
    (hov : overlayActive f = true) (hs : s.mouseHidden = true) :
    showMouse f s = ({ s with mouseHidden := false }, true) := by
  unfold showMouse
  by_cases hb : (f.isBlackboardMode && f.hasBlackboardWidget) = true
  · simp [hs, hb]
  · have hw : (f.isWhiteboardMode && f.hasWhiteboardWidget) = true := by
      unfold overlayActive at hov
      rcases (Bool.or_eq_true _ _).mp hov with h | h
      · exact absurd h hb
      · exact h
    simp [hs, hb, hw]

/-- An active overlay never takes the early-return of the movement check. -/
theorem overlay_guard_false (f : OverlayFlags)
    (hov : overlayActive f = true) :
    (!f.isBlackboardMode && !f.isWhiteboardMode) = false := by
  unfold overlayActive at hov
  cases hb : f.isBlackboardMode <;> cases hw : f.isWhiteboardMode <;>
    simp_all

/-- While the cursor is hidden, further unchanged samples only accumulate
stationary time: no further signal is ever emitted. -/
theorem runMouse_hidden_same (f : OverlayFlags) (p : Int × Int) (n j : Nat)
    (hov : overlayActive f = true) :
    runMouse f { mouseHidden := true, stationaryMs := j, lastPos := some p }
      (List.replicate n (some p)) =
    ({ mouseHidden := true, stationaryMs := j + 100 * n, lastPos := some p },
     []) := by
  induction n generalizing j with
  | zero => simp [runMouse]
  | succ k ih =>
    have hstep : checkMouseMovement f
        { mouseHidden := true, stationaryMs := j, lastPos := some p }
        (some p) =
        ({ mouseHidden := true, stationaryMs := j + 100, lastPos := some p },
         none) := by
      simp [checkMouseMovement, overlay_guard_false f hov]
    rw [List.replicate_succ]
    simp only [runMouse, hstep, ih (j + 100), Option.toList_none,
      List.nil_append]
    have harith : j + 100 + 100 * k = j + 100 * (k + 1) := by ring
    rw [harith]

/-- From a visible cursor with `j < 2000` ms accumulated, a run of unchanged
samples hides the cursor exactly when the 2000 ms threshold is crossed,
emitting the hide signal exactly once. -/
theorem runMouse_stationary (f : OverlayFlags) (p : Int × Int) (n j : Nat)
    (hov : overlayActive f = true) (hj : j < 2000) :
    runMouse f { mouseHidden := false, stationaryMs := j, lastPos := some p }
      (List.replicate n (some p)) =
    ({ mouseHidden := decide (2000 ≤ j + 100 * n),
       stationaryMs := j + 100 * n, lastPos := some p },
     if 2000 ≤ j + 100 * n then [MouseSignal.hidden] else []) := by
  induction n generalizing j with
  | zero =>
    have hnot : ¬ 2000 ≤ j + 100 * 0 := by omega
    simp [runMouse, hnot]
    omega
  | succ k ih =>
    rw [List.replicate_succ]
    by_cases hcross : 2000 ≤ j + 100
    · have hstep : checkMouseMovement f
          { mouseHidden := false, stationaryMs := j, lastPos := some p }
          (some p) =
          ({ mouseHidden := true, stationaryMs := j + 100,
             lastPos := some p }, some MouseSignal.hidden) := by
        simp only [checkMouseMovement, overlay_guard_false f hov,
          Bool.false_eq_true, if_false]
        simp only [ne_self_iff_false, if_false]
        rw [if_pos (by simp [hcross])]
        rw [hideMouse_overlay f _ hov rfl]
        rfl
      simp only [runMouse, hstep, runMouse_hidden_same f p k (j + 100) hov]
      have hc2 : 2000 ≤ j + 100 * (k + 1) := by omega
      have harith : j + 100 + 100 * k = j + 100 * (k + 1) := by ring
      simp [hc2, harith]
    · have hstep : checkMouseMovement f
          { mouseHidden := false, stationaryMs := j, lastPos := some p }
          (some p) =
          ({ mouseHidden := false, stationaryMs := j + 100,
             lastPos := some p }, none) := by
        simp only [checkMouseMovement, overlay_guard_false f hov,
          Bool.false_eq_true, if_false]
        simp only [ne_self_iff_false, if_false]
        rw [if_neg (by simp [hcross])]
      simp only [runMouse, hstep, ih (j + 100) (by omega),
        Option.toList_none, List.nil_append]
      have harith : j + 100 + 100 * k = j + 100 * (k + 1) := by ring
      rw [harith]

/-- C9: with an overlay active, starting from a visible cursor whose
position is known, `n ≥ 20` unchanged 100 ms samples (≥ 2000 ms stationary)
emit the hide signal exactly once — the signal list of the whole run is
exactly `[hidden]` — and from any hidden state a single differing sample
resets the stationary time, records the new position and emits the show
signal immediately. -/
theorem claim_c9_hide_once_show_immediately (f : OverlayFlags)
    (p q : Int × Int) (s : MouseState) (n : Nat)
    (hov : overlayActive f = true) (hn : 20 ≤ n) (hq : q ≠ p)
    (hs : s.mouseHidden = true) (hlast : s.lastPos = some p) :
    (runMouse f
      { mouseHidden := false, stationaryMs := 0, lastPos := some p }
      (List.replicate n (some p))).2 = [MouseSignal.hidden] ∧
    checkMouseMovement f s (some q) =
      ({ mouseHidden := false, stationaryMs := 0, lastPos := some q },
       some MouseSignal.shown) := by
  constructor
  · rw [runMouse_stationary f p n 0 hov (by omega)]
    show (if 2000 ≤ 0 + 100 * n then [MouseSignal.hidden] else []) =
      [MouseSignal.hidden]
    rw [if_pos (by omega)]
  · obtain ⟨hid, st, lp⟩ := s
    simp only at hs hlast
    subst hs
    subst hlast
    have hshow := showMouse_overlay f
      { mouseHidden := true, stationaryMs := 0, lastPos := some q } hov rfl
    simp [checkMouseMovement, overlay_guard_false f hov, hq, hshow]

/-- C9 witness: the statement evaluated with the blackboard overlay, the
pointer parked at the origin for 20 samples, and a hidden-state sample that
moves to (1, 1). -/
theorem claim_c9_witness :
    (20 : Nat) ≤ 20 ∧
    ((runMouse overlayBlackboard
      { mouseHidden := false, stationaryMs := 0, lastPos := some (0, 0) }
      (List.replicate 20 (some (0, 0)))).2 = [MouseSignal.hidden] ∧
     checkMouseMovement overlayBlackboard
       { mouseHidden := true, stationaryMs := 500, lastPos := some (0, 0) }
       (some (1, 1)) =
       ({ mouseHidden := false, stationaryMs := 0, lastPos := some (1, 1) },
        some MouseSignal.shown)) :=
  ⟨by decide,
    claim_c9_hide_once_show_immediately overlayBlackboard (0, 0) (1, 1)
      { mouseHidden := true, stationaryMs := 500, lastPos := some (0, 0) }
      20 (by decide) (by decide) (by decide) (by decide) (by decide)⟩
